import Mathlib

/-!
Verification development for the autonomous data-cleaning agent.

The repository's core logic lives in `src/auto_eda_cleaner.py` (functions
`perform_eda`, `detect_column_types`, `auto_clean_dataset`) and in
`src/main.py` (class `IntelligentDataCleaner` with methods `perform_eda`,
`detect_column_types`, `clean_data`).  The two files carry two copies of the
same engine that differ in two places, both modelled here:
  * the quality score: `auto_eda_cleaner.perform_eda` applies only the lower
    clamp `max(0, score)`, while `main.perform_eda` applies
    `max(0, min(100, score))` and divides the duplicate count by
    `max(len(df), 1)`;
  * the datetime repair stage: `auto_clean_dataset` counts missing cells
    before `pd.to_datetime(..., errors='coerce')` runs, `clean_data` counts
    them after.

Tables are embedded row-major: a list of column names plus a list of rows,
each row a list of cells.  A cell is absent (pandas NaN/NaT), a rational
number (floats are modelled exactly), a string, or a datetime (pandas
`datetime64`, modelled as whole days since 1970-01-01; every datetime value
arising in this development is day-aligned).  Pandas library behaviour that
the source calls into is modelled faithfully for these cell shapes and
documented at each definition.
-/

namespace DataClean

/-- Cell of a table: pandas NaN/NaT (`absent`), a number, a string, or a
`datetime64` value given as days since 1970-01-01. -/
inductive Cell
  | absent
  | num (q : ℚ)
  | text (s : String)
  | date (d : ℤ)
deriving DecidableEq, Repr

/-- Column kinds assigned by `detect_column_types`: the four keys of the
`column_mapping` dictionary (`'numeric'`, `'datetime'`, `'categorical'`,
`'text'`). -/
inductive ColKind
  | numeric
  | datetime
  | categorical
  | text
deriving DecidableEq, Repr

/-- Table: ordered column names plus rows, positionally aligned.  This is the
shape of a `pandas.DataFrame` as the cleaner uses it. -/
structure Table where
  names : List String
  rows : List (List Cell)
deriving DecidableEq, Repr

/-- Row count, `len(df)`. -/
def Table.nrows (t : Table) : ℕ := t.rows.length

/-- Column count, `len(df.columns)`. -/
def Table.ncols (t : Table) : ℕ := t.names.length

/-- Values of column `j`, i.e. `df[col]` for the j-th column name. -/
def Table.getCol (t : Table) (j : ℕ) : List Cell :=
  t.rows.map (fun r => r.getD j Cell.absent)

/-- In-place column assignment `df[col] = vs` (the per-column repair stages
always assign a series of the same length). -/
def Table.setCol (t : Table) (j : ℕ) (vs : List Cell) : Table :=
  { t with rows := List.zipWith (fun r v => r.set j v) t.rows vs }

/-- Test for the pandas missing marker. -/
def Cell.isAbsent : Cell → Bool
  | .absent => true
  | _ => false

/-! ### String helpers (Python `str.strip`, `str.title`, and string order) -/

/-- Python `str.strip()`: drop leading and trailing whitespace. -/
def pyStrip (s : String) : String :=
  ⟨((s.data.dropWhile Char.isWhitespace).reverse.dropWhile Char.isWhitespace).reverse⟩

/-- Worker for `pyTitle`: the boolean records whether the previous character
was alphabetic (Python upcases a letter exactly when the previous character
is not cased). -/
def titleMap : Bool → List Char → List Char
  | _, [] => []
  | prevAlpha, c :: cs =>
    (if c.isAlpha then (if prevAlpha then c.toLower else c.toUpper) else c) ::
      titleMap c.isAlpha cs

/-- Python `str.title()`: first letter of each word uppercase, the rest
lowercase. -/
def pyTitle (s : String) : String := ⟨titleMap false s.data⟩

/-- Lexicographic comparison of strings by code point, the order Python and
pandas use when sorting strings (e.g. inside `Series.mode`). -/
def strLeList : List Char → List Char → Bool
  | [], _ => true
  | _ :: _, [] => false
  | a :: as, b :: bs =>
    if a.toNat < b.toNat then true
    else if b.toNat < a.toNat then false
    else strLeList as bs

/-- String order used by pandas sorts. -/
def strLe (a b : String) : Bool := strLeList a.data b.data

/-! ### Calendar arithmetic

`pd.to_datetime` parses calendar dates and `Series.dt.strftime('%Y-%m-%d')`
prints them.  Dates are counted in days since 1970-01-01 using the standard
civil-calendar conversion (Gregorian, proleptic), which is exactly the
calendar pandas timestamps use. -/

/-- Days since 1970-01-01 of the civil date `y-m-d` (proleptic Gregorian). -/
def daysFromCivil (y m d : ℤ) : ℤ :=
  let y2 := if m ≤ 2 then y - 1 else y
  let era := y2 / 400
  let yoe := y2 - era * 400
  let mp := if 2 < m then m - 3 else m + 9
  let doy := (153 * mp + 2) / 5 + d - 1
  let doe := yoe * 365 + yoe / 4 - yoe / 100 + doy
  era * 146097 + doe - 719468

/-- Civil date `(y, m, d)` of a day count since 1970-01-01 (inverse of
`daysFromCivil`). -/
def civilFromDays (z0 : ℤ) : ℤ × ℤ × ℤ :=
  let z := z0 + 719468
  let era := z / 146097
  let doe := z - era * 146097
  let yoe := (doe - doe / 1460 + doe / 36524 - doe / 146096) / 365
  let y := yoe + era * 400
  let doy := doe - (365 * yoe + yoe / 4 - yoe / 100)
  let mp := (5 * doy + 2) / 153
  let d := doy - (153 * mp + 2) / 5 + 1
  let m := if mp < 10 then mp + 3 else mp - 9
  (if m ≤ 2 then y + 1 else y, m, d)

/-- Gregorian leap-year test. -/
def leapYear (y : ℤ) : Bool := y % 4 = 0 && (y % 100 ≠ 0 || y % 400 = 0)

/-- Number of days in month `m` of year `y`. -/
def daysInMonth (y m : ℤ) : ℤ :=
  if m = 2 then (if leapYear y then 29 else 28)
  else if m = 4 ∨ m = 6 ∨ m = 9 ∨ m = 11 then 30
  else 31

/-- Numeric value of a digit character. -/
def digitVal (c : Char) : ℕ := c.toNat - '0'.toNat

/-- Calendar-date parser: models `pd.to_datetime(value, errors='coerce')` on
the string values appearing in this development, restricted to the ISO form
`YYYY-MM-DD`; any other string (e.g. free text such as `"hello"`) fails to
parse, exactly as in pandas.  Invalid calendar combinations are rejected. -/
def parseDate (s : String) : Option ℤ :=
  match s.data with
  | [y1, y2, y3, y4, h1, m1, m2, h2, d1, d2] =>
    if (y1.isDigit && y2.isDigit && y3.isDigit && y4.isDigit &&
        m1.isDigit && m2.isDigit && d1.isDigit && d2.isDigit &&
        h1 = '-' && h2 = '-') then
      let y : ℤ := (1000 * digitVal y1 + 100 * digitVal y2 + 10 * digitVal y3 + digitVal y4 : ℕ)
      let m : ℤ := (10 * digitVal m1 + digitVal m2 : ℕ)
      let d : ℤ := (10 * digitVal d1 + digitVal d2 : ℕ)
      if 1 ≤ m ∧ m ≤ 12 ∧ 1 ≤ d ∧ d ≤ daysInMonth y m then some (daysFromCivil y m d)
      else none
    else none
  | _ => none

/-- Render a natural number left-padded with zeros to width `k`. -/
def padNat (k : ℕ) (n : ℕ) : String :=
  let s := Nat.repr n
  ⟨List.replicate (k - s.length) '0'⟩ ++ s

/-- `Series.dt.strftime('%Y-%m-%d')` on a day-count timestamp. -/
def fmtDays (z : ℤ) : String :=
  let c := civilFromDays z
  padNat 4 c.1.toNat ++ "-" ++ padNat 2 c.2.1.toNat ++ "-" ++ padNat 2 c.2.2.toNat

/-! ### Column-type detection (`detect_column_types`)

Source (`src/auto_eda_cleaner.py:89-109`, identically `src/main.py:82-102`):

```
if pd.api.types.is_numeric_dtype(df[col]): numeric
elif pd.api.types.is_datetime64_any_dtype(df[col]): datetime
else:
    try:
        pd.to_datetime(df[col], errors='coerce')
        if df[col].apply(lambda x: isinstance(x, str) and len(x) < 50).all(): datetime
        else: text
    except: (categorical / text by cardinality)
```

The result of the `pd.to_datetime` probe is discarded, and with
`errors='coerce'` the call does not raise on columns of scalar cells
(strings, numbers, missing markers): unparseable entries are silently
coerced to `NaT`.  Hence the `except:` branch — the only place the
`categorical` kind is assigned — is dead code for such columns, and the
embedding has no exception path. -/

/-- `pd.api.types.is_numeric_dtype`: a column holds a numeric dtype exactly
when every cell is a number or missing (an all-NaN column is `float64`). -/
def is_numeric_dtype (col : List Cell) : Bool :=
  col.all (fun c => match c with
    | .absent => true
    | .num _ => true
    | _ => false)

/-- `pd.api.types.is_datetime64_any_dtype`: every cell is a datetime value or
missing, with at least one actual datetime (an all-NaN column is float). -/
def is_datetime_dtype (col : List Cell) : Bool :=
  (col.all (fun c => match c with
    | .absent => true
    | .date _ => true
    | _ => false)) &&
  (col.any (fun c => match c with
    | .date _ => true
    | _ => false))

/-- The lambda `isinstance(x, str) and len(x) < 50` from the detection code:
note it is applied to every cell including missing markers, and a NaN is not
a string. -/
def isShortStr (c : Cell) : Bool :=
  match c with
  | .text s => decide (s.length < 50)
  | _ => false

/-- Kind assigned to one column by `detect_column_types`. -/
def classify (col : List Cell) : ColKind :=
  if is_numeric_dtype col then .numeric
  else if is_datetime_dtype col then .datetime
  else if col.all isShortStr then .datetime
  else .text

/-- `detect_column_types`: classify every column independently.  The result
stands for the `column_mapping` dict, recorded as the kind of column `j` for
each `j` (the dict's four lists partition the columns; column order is
preserved inside each list). -/
def detect_column_types (t : Table) : List ColKind :=
  (List.range t.ncols).map (fun j => classify (t.getCol j))

/-! ### Per-column repair stages of `auto_clean_dataset` / `clean_data` -/

/-- `Series.fillna(v)`: replace missing cells by `v`. -/
def fillWith (v : Cell) (col : List Cell) : List Cell :=
  col.map (fun c => if c.isAbsent then v else c)

/-- `Series.median()` of a numeric column's non-missing values: pandas sorts
and, for an even count, averages the two central values; `none` models the
NaN median of an empty column. -/
def median_q (l : List ℚ) : Option ℚ :=
  let s := List.insertionSort (· ≤ ·) l
  if s.length = 0 then none
  else some ((s.getD ((s.length - 1) / 2) 0 + s.getD (s.length / 2) 0) / 2)

/-- Numeric repair (`src/auto_eda_cleaner.py:147-153`): when the column has
missing cells, fill them with the median.  `fillna(NaN)` — the all-missing
column, whose median is NaN — is a no-op in pandas, leaving the column
unchanged. -/
def clean_numeric_col (col : List Cell) : List Cell :=
  let missing := col.count Cell.absent
  if 0 < missing then
    match median_q (col.filterMap (fun c => match c with | .num q => some q | _ => none)) with
    | some m => fillWith (.num m) col
    | none => col
  else col

/-- Non-missing cells of a column (`Series.dropna()`). -/
def nonAbsentCells (col : List Cell) : List Cell :=
  col.filter (fun c => !c.isAbsent)

/-- Total order on cells used to model the sort inside `Series.mode`:
payloads compare within one constructor by their natural order (the order
pandas actually sorts by for homogeneous columns); the cross-constructor
rank is arbitrary and is never exercised, since a real pandas column holds
one value type. -/
def cellLe : Cell → Cell → Bool
  | .absent, _ => true
  | _, .absent => false
  | .num a, .num b => decide (a ≤ b)
  | .num _, _ => true
  | _, .num _ => false
  | .text a, .text b => strLe a b
  | .text _, _ => true
  | _, .text _ => false
  | .date a, .date b => decide (a ≤ b)

/-- Step of the selection of `mode()[0]`: keep the candidate with the larger
count, breaking count ties towards the `cellLe`-smaller value. -/
def betterMode (vals : List Cell) (b c : Cell) : Cell :=
  if vals.count b < vals.count c then c
  else if decide (vals.count c = vals.count b) && cellLe c b then c
  else b

/-- `df[col].mode()[0]`: pandas `Series.mode` returns the maximal-frequency
non-missing values **in sorted order**, so indexing with `[0]` yields the
least such value; `none` models the empty mode of an all-missing column. -/
def pandasModeFirst (col : List Cell) : Option Cell :=
  let vals := nonAbsentCells col
  match vals.dedup with
  | [] => none
  | c :: cs => some (cs.foldl (betterMode vals) c)

/-- Object-dtype test `df[col].dtype == 'object'`: a pandas column is object
exactly when it is neither numeric- nor datetime-dtyped. -/
def is_object_dtype (col : List Cell) : Bool :=
  !is_numeric_dtype col && !is_datetime_dtype col

/-- `astype(str).str.strip().str.title()` on one cell.  Classified columns
reaching this normalization hold strings (plus filled values), so only the
string case is exercised; a missing cell would be stringified by pandas to
`"nan"` and then title-cased. -/
def normalize_cat_cell (c : Cell) : Cell :=
  match c with
  | .text s => .text (pyTitle (pyStrip s))
  | .absent => .text "Nan"
  | c => c

/-- Fill part of the categorical repair (`src/auto_eda_cleaner.py:156-163`):
when missing cells exist, fill with `mode()[0]`, falling back to the literal
`'Unknown'` when the mode is empty. -/
def cat_filled (col : List Cell) : List Cell :=
  let missing := col.count Cell.absent
  if 0 < missing then fillWith ((pandasModeFirst col).getD (.text "Unknown")) col
  else col

/-- Categorical repair: mode fill, then `strip` + `title` normalization when
the column is object-dtyped. -/
def clean_categorical_col (col : List Cell) : List Cell :=
  let col1 := cat_filled col
  if is_object_dtype col1 then col1.map normalize_cat_cell else col1

/-- `pd.to_datetime(value, errors='coerce')` on one cell: missing stays
missing (`NaT`), datetime values pass through, strings are parsed (failures
coerce to `NaT`), and a bare number is read as nanoseconds since the epoch
and truncated to its day by the later `strftime`. -/
def to_datetime_cell (c : Cell) : Option ℤ :=
  match c with
  | .absent => none
  | .date d => some d
  | .text s => parseDate s
  | .num q => some ⌊q / (86400 * 1000000000 : ℚ)⌋

/-- Central pair of a sorted list: for odd length the two components
coincide; for even length these are the two chronologically central
elements. -/
def centralPair (l : List ℤ) : Option (ℤ × ℤ) :=
  let s := List.insertionSort (· ≤ ·) l
  if s.length = 0 then none
  else some (s.getD ((s.length - 1) / 2) 0, s.getD (s.length / 2) 0)

/-- Twice the `Series.median()` of a datetime column, in days: pandas
averages the two central timestamps, so the median is half this value (a
half-day resolution number; `strftime` later floors it to a civil day). -/
def median2_days (l : List ℤ) : Option ℤ :=
  (centralPair l).map (fun p => p.1 + p.2)

/-- Datetime repair as written in `src/auto_eda_cleaner.py:170-181`: the
missing count is taken **before** the coercion, then the column is coerced,
`fillna(median)` runs only when that pre-coercion count was positive (and
fills every `NaT` present, including coercion-created ones), and finally
`dt.strftime('%Y-%m-%d')` renders each timestamp, turning `NaT` into NaN.
The `except:` branch (`"Could not parse"`) is unreachable because
`errors='coerce'` does not raise on scalar cells. -/
def clean_datetime_col_auto (col : List Cell) : List Cell :=
  let missing := col.count Cell.absent
  let parsed := col.map to_datetime_cell
  let fill : Option ℤ :=
    if 0 < missing then (median2_days (parsed.filterMap id)).map (fun m2 => m2 / 2)
    else none
  parsed.map (fun o =>
    match o with
    | some d => Cell.text (fmtDays d)
    | none =>
      match fill with
      | some f => Cell.text (fmtDays f)
      | none => Cell.absent)

/-- Datetime repair as written in `src/main.py:194-204`: identical to
`clean_datetime_col_auto` except that the missing count is taken **after**
the coercion, so coercion-created `NaT`s also trigger the median fill. -/
def clean_datetime_col_main (col : List Cell) : List Cell :=
  let parsed := col.map to_datetime_cell
  let missing := parsed.count none
  let fill : Option ℤ :=
    if 0 < missing then (median2_days (parsed.filterMap id)).map (fun m2 => m2 / 2)
    else none
  parsed.map (fun o =>
    match o with
    | some d => Cell.text (fmtDays d)
    | none =>
      match fill with
      | some f => Cell.text (fmtDays f)
      | none => Cell.absent)

/-- `astype(str).str.strip()` on one cell of a text column. -/
def normalize_text_cell (c : Cell) : Cell :=
  match c with
  | .text s => .text (pyStrip s)
  | .absent => .text "nan"
  | c => c

/-- Text repair (`src/auto_eda_cleaner.py:184-191`): fill missing with the
literal `'Unknown'`, then strip whitespace when the column is
object-dtyped. -/
def clean_text_col (col : List Cell) : List Cell :=
  let missing := col.count Cell.absent
  let col1 := if 0 < missing then fillWith (.text "Unknown") col else col
  if is_object_dtype col1 then col1.map normalize_text_cell else col1

/-! ### The cleaning pipeline -/

/-- Worker for `drop_duplicates`: keep each row's first occurrence, in
order. -/
def dedupRows : List (List Cell) → List (List Cell) → List (List Cell)
  | _, [] => []
  | seen, r :: rs =>
    if r ∈ seen then dedupRows seen rs
    else r :: dedupRows (r :: seen) rs

/-- `df.drop_duplicates(ignore_index=True)`: remove rows equal to an earlier
row, preserving order. -/
def drop_duplicates (t : Table) : Table :=
  { t with rows := dedupRows [] t.rows }

/-- Run a per-column repair `f` over every column whose detected kind is `k`
(the source iterates the corresponding `col_types[...]` name list, which
holds those columns in table order), threading the partially repaired
table. -/
def applyKind (kinds : List ColKind) (k : ColKind) (f : List Cell → List Cell)
    (t : Table) : Table :=
  (List.range t.ncols).foldl
    (fun acc j => if kinds.getD j ColKind.text = k then acc.setCol j (f (acc.getCol j)) else acc)
    t

/-- Row-sparsity pruning (`src/auto_eda_cleaner.py:193-198`): drop every row
of the **current** table whose missing fraction strictly exceeds one half.
Keeping a row means `missing / ncols > 0.5` is false, i.e.
`2 * missing ≤ ncols` (an empty column list gives a NaN fraction, which
compares false, so every row is kept). -/
def prune_sparse_rows (t : Table) : Table :=
  { t with rows := t.rows.filter (fun r => decide (2 * r.count Cell.absent ≤ t.names.length)) }

/-- Stages 1-5 (deduplicate, then numeric, categorical, datetime and text
repair) with the datetime variant supplied by the caller. -/
def stages_to_text (kinds : List ColKind) (dt : List Cell → List Cell) (t : Table) : Table :=
  let t1 := drop_duplicates t
  let t2 := applyKind kinds .numeric clean_numeric_col t1
  let t3 := applyKind kinds .categorical clean_categorical_col t2
  let t4 := applyKind kinds .datetime dt t3
  applyKind kinds .text clean_text_col t4

/-- `IntelligentDataCleaner.clean_data` (`src/main.py:158-227`): the six-stage
pipeline over a table and an externally supplied classification map
(`self.col_types`). -/
def clean_data (kinds : List ColKind) (t : Table) : Table :=
  prune_sparse_rows (stages_to_text kinds clean_datetime_col_main t)

/-- `auto_clean_dataset` (`src/auto_eda_cleaner.py:114-206`): copies the
input, detects column types itself, then runs the six stages. -/
def auto_clean_dataset (t : Table) : Table :=
  prune_sparse_rows (stages_to_text (detect_column_types t) clean_datetime_col_auto t)

/-! ### Quality scoring (`perform_eda`)

Both scorers compute, in float arithmetic,
`(1 - missing.sum() / (len(df) * len(df.columns))) * 100 - duplicates/len(df) * 10`.
A zero denominator yields NaN (numpy emits a warning, not an exception), and
NaN then flows through Python's `max`/`min`, which keep their first argument
whenever the comparison with NaN is false: `max(0, nan) = 0` and
`min(100, nan) = 100`.  `Option ℚ` models a float that is either NaN
(`none`) or an exact real value. -/

/-- Float division `a / b`: NaN when the denominator is zero. -/
def pdiv (a b : ℚ) : Option ℚ :=
  if b = 0 then none else some (a / b)

/-- The score expression `(1 - mr) * 100 - dr * 10` with NaN propagation. -/
def scoreExpr (mr dr : Option ℚ) : Option ℚ :=
  match mr, dr with
  | some m, some d => some ((1 - m) * 100 - d * 10)
  | some _, none => none
  | none, some _ => none
  | none, none => none

/-- Python `max(0, x)`: returns `x` only when `x > 0` is true, hence `0` on
NaN. -/
def pyMax0 : Option ℚ → ℚ
  | none => 0
  | some q => if 0 < q then q else 0

/-- Python `min(100, x)`: returns `x` only when `x < 100` is true, hence
`100` on NaN. -/
def pyMin100 : Option ℚ → ℚ
  | none => 100
  | some q => if q < 100 then q else 100

/-- `df.isnull().sum().sum()`: total number of missing cells. -/
def total_missing (t : Table) : ℕ :=
  (t.rows.map (fun r => r.count Cell.absent)).sum

/-- `df.duplicated().sum()`: number of rows equal to some earlier row. -/
def duplicate_count (t : Table) : ℕ :=
  t.rows.length - t.rows.dedup.length

/-- Quality score of `perform_eda` in `src/auto_eda_cleaner.py:67-70`: only
the lower clamp `max(0, score)` is applied. -/
def quality_score_eda (t : Table) : ℚ :=
  pyMax0 (scoreExpr
    (pdiv (total_missing t) ((t.nrows * t.ncols : ℕ)))
    (pdiv (duplicate_count t) (t.nrows)))

/-- Quality score of `IntelligentDataCleaner.perform_eda` in
`src/main.py:147-150`: the duplicate ratio divides by `max(len(df), 1)` and
both clamps `max(0, min(100, score))` are applied. -/
def quality_score_main (t : Table) : ℚ :=
  pyMax0 (some (pyMin100 (scoreExpr
    (pdiv (total_missing t) ((t.nrows * t.ncols : ℕ)))
    (pdiv (duplicate_count t) ((max t.nrows 1 : ℕ))))))

/-- Missing ratio in the spec's words: `total_absent_cells / (row_count *
column_count)`. -/
def missing_ratio (t : Table) : ℚ :=
  (total_missing t : ℚ) / ((t.nrows * t.ncols : ℕ) : ℚ)

/-- Duplicate ratio in the spec's words: `duplicate_row_count / row_count`. -/
def duplicate_ratio (t : Table) : ℚ :=
  (duplicate_count t : ℚ) / (t.nrows : ℚ)

/-- The unclamped score `(1 - missing_ratio) * 100 - duplicate_ratio * 10`. -/
def raw_score (t : Table) : ℚ :=
  (1 - missing_ratio t) * 100 - duplicate_ratio t * 10

/-- `clamp(0, 100, raw_score)`, following the spec's formula for
`quality_score`. -/
def clamp_spec (t : Table) : ℚ :=
  max 0 (min 100 (raw_score t))

/-! ### Heap model of `clean_data`'s copy discipline

`clean_data` begins with `df = df.copy()` (`src/main.py:164`, identically
`src/auto_eda_cleaner.py:129`) and every later statement mutates only that
copy, via in-place column assignment or rebinding.  To state that the
caller's frame is untouched, tables live in an addressed store: the call
allocates a copy at a fresh address and each stage writes through that
address only. -/

/-- Placeholder table for out-of-range reads of the store. -/
def emptyTable : Table := ⟨[], []⟩

/-- One mutating statement: overwrite the table at address `j` with `f`
applied to it. -/
def heapWrite (f : Table → Table) (h : List Table) (j : ℕ) : List Table :=
  h.set j (f (h.getD j emptyTable))

/-- `clean_data` on the addressed store: reads the caller's table at `i`,
allocates the copy at the fresh address `heap.length`, applies the six
stages there, and returns the store plus the address of the result. -/
def clean_data_heap (heap : List Table) (i : ℕ) : List Table × ℕ :=
  let df0 := heap.getD i emptyTable
  let kinds := detect_column_types df0
  let j := heap.length
  let h0 := heap ++ [df0]
  let h1 := heapWrite drop_duplicates h0 j
  let h2 := heapWrite (applyKind kinds .numeric clean_numeric_col) h1 j
  let h3 := heapWrite (applyKind kinds .categorical clean_categorical_col) h2 j
  let h4 := heapWrite (applyKind kinds .datetime clean_datetime_col_auto) h3 j
  let h5 := heapWrite (applyKind kinds .text clean_text_col) h4 j
  let h6 := heapWrite prune_sparse_rows h5 j
  (h6, j)

end DataClean

namespace DataClean

/-! ### Concrete example tables used by the claim theorems -/

/-- Degenerate table with no columns and no rows. -/
def degTable : Table := ⟨[], []⟩

/-- Degenerate table with one column and zero rows (a header-only CSV). -/
def degTable1 : Table := ⟨["a"], []⟩

/-- Two-row, one-column table used for the score witness: the second row
duplicates the first. -/
def dupTable : Table := ⟨["a"], [[Cell.num 1], [Cell.num 1]]⟩

/-- Table whose only column holds two short free-text strings; no value
parses as a date, yet the detector classifies the column DateTime. -/
def c3Table : Table := ⟨["d"], [[Cell.text "hello"], [Cell.text "world"]]⟩

/-- Column of four identical sixty-character strings: low cardinality, but
the length guard sends it to Text, never Categorical. -/
def longText : Cell := Cell.text ⟨List.replicate 60 'a'⟩

/-- Datetime-dtyped column (two parsed dates around 2020-01-01 plus one
missing cell), exercising the even-count median fill. -/
def c7Table : Table := ⟨["d"], [[Cell.date 18262], [Cell.date 18264], [Cell.absent]]⟩

/-- The single column of `c7Table`. -/
def c7Col : List Cell := [Cell.date 18262, Cell.date 18264, Cell.absent]

/-- Column of the mode tie-break scenario, with a missing cell to fill. -/
def c4Col : List Cell :=
  [Cell.text "B", Cell.text "A", Cell.text "B", Cell.text "A", Cell.absent]

/-- Two-column table around `c4Col`: the `id` column keeps the five rows
distinct so deduplication removes nothing. -/
def c4Table : Table :=
  ⟨["id", "cat"],
   [[Cell.num 1, Cell.text "B"], [Cell.num 2, Cell.text "A"], [Cell.num 3, Cell.text "B"],
    [Cell.num 4, Cell.text "A"], [Cell.num 5, Cell.absent]]⟩

/-- Classification map for `c4Table` marking the second column Categorical
(the shape `clean_data` receives through `self.col_types`). -/
def c4Kinds : List ColKind := [ColKind.numeric, ColKind.categorical]

/-- Three-row, two-column table whose middle row is fully absent before any
fill; both columns are classified Text (a missing cell defeats the
all-short-strings check), so stage 5 fills the row completely. -/
def c2Table : Table :=
  ⟨["x", "y"],
   [[Cell.text "a", Cell.text "c"], [Cell.absent, Cell.absent], [Cell.text "b", Cell.text "d"]]⟩

/-- One-column table whose rows are pairwise distinct but collapse to equal
rows once the text stage trims whitespace and fills the missing cell. -/
def c10Table : Table :=
  ⟨["c"], [[Cell.text " a"], [Cell.text "a"], [Cell.absent]]⟩

/-- Small table used as heap content for the no-mutation witness. -/
def c9Table : Table := ⟨["a"], [[Cell.num 1]]⟩

end DataClean

namespace DataClean

/-! ### Claim theorems (with their counterexamples and witnesses) -/

/-- C3 (code_bug evidence).  The claim says a DateTime-classified column in
which no value parses is left unmodified and only flagged with a warning.
On the failing input — one column holding the strings `"hello"`, `"world"`
— the detector classifies the column DateTime (the length check alone
decides), `pd.to_datetime(..., errors='coerce')` turns both values into
`NaT` without raising (so the intended `"Could not parse"` branch never
runs), the pre-coercion missing count is 0 so nothing is filled, `strftime`
maps `NaT` to NaN, and the row-sparsity stage then deletes every row: the
cleaner returns an empty table instead of the unmodified column. -/
theorem c3_unparseable_datetime_column_wiped :
    detect_column_types c3Table = [ColKind.datetime] ∧
    parseDate "hello" = none ∧ parseDate "world" = none ∧
    c3Table.rows.length = 2 ∧
    (auto_clean_dataset c3Table).rows = [] := by decide

/-- C5 (counterexample).  The claim says a non-Numeric column is classified
DateTime only if every non-absent value parses as a calendar date.  The
column `["hello", "world"]` is classified DateTime although no value
parses: the detection code discards the result of its `pd.to_datetime`
probe and tests only that every cell is a string shorter than 50
characters. -/
theorem c5_counterexample :
    classify [Cell.text "hello", Cell.text "world"] = ColKind.datetime ∧
    parseDate "hello" = none ∧ parseDate "world" = none := by decide

/-- C6 (counterexample).  The claim says a column that is neither Numeric
nor DateTime is Categorical exactly when its distinct-count is below half
the row count, and that an all-absent column lands in Categorical.  Four
identical sixty-character strings give distinct-count 1 < 4/2, yet the
column is classified Text (the cardinality rule lives in a dead `except:`
branch); and an all-absent column has float dtype, so it is classified
Numeric, not Categorical. -/
theorem c6_counterexample :
    classify (List.replicate 4 longText) = ColKind.text ∧
    (nonAbsentCells (List.replicate 4 longText)).dedup.length = 1 ∧
    2 * 1 < 4 ∧
    classify (List.replicate 3 Cell.absent) = ColKind.numeric := by decide

/-- C7 (counterexample).  The claim says that for an even count of parseable
dates the fill is the earlier of the two central dates.  For the
DateTime column `[2020-01-01, 2020-01-03, NaT]`, pandas' median is the
interpolated midpoint, so the missing cell is filled with `"2020-01-02"` —
a date equal to neither parsed value, not the earlier central date
`"2020-01-01"`. -/
theorem c7_counterexample :
    detect_column_types c7Table = [ColKind.datetime] ∧
    fmtDays 18262 = "2020-01-01" ∧ fmtDays 18264 = "2020-01-03" ∧
    (auto_clean_dataset c7Table).rows =
      [[Cell.text "2020-01-01"], [Cell.text "2020-01-03"], [Cell.text "2020-01-02"]] ∧
    (Cell.text "2020-01-02" == Cell.text "2020-01-01") = false ∧
    (Cell.text "2020-01-02" == Cell.text "2020-01-03") = false := by decide

/-- C10.  The cleaned output is not duplicate-free: the rows of `c10Table`
are pairwise distinct, so stage-1 deduplication removes nothing, but the
text stage trims `" a"` to `"a"` and fills the missing cell, leaving two
identical rows `["a"]` in the final output, which no later stage
deduplicates. -/
theorem c10_duplicates_reintroduced :
    c10Table.rows.Nodup ∧
    (auto_clean_dataset c10Table).rows.getD 0 [] = (auto_clean_dataset c10Table).rows.getD 1 [] ∧
    (auto_clean_dataset c10Table).rows.getD 0 [] = [Cell.text "a"] ∧
    (auto_clean_dataset c10Table).rows.length = 3 := by decide

/-- C2 (counterexample).  The claim says stage 6 prunes by the pre-fill
absence snapshot taken right after deduplication, so the middle row of
`c2Table` — absent in 2 of its 2 columns at that point — should be removed.
The code instead evaluates missingness on the current, post-fill table:
the text stage has already filled the row with `"Unknown"`, so all three
rows survive. -/
theorem c2_counterexample :
    (drop_duplicates c2Table).rows = c2Table.rows ∧
    ((drop_duplicates c2Table).rows.getD 1 []).count Cell.absent = 2 ∧
    c2Table.ncols = 2 ∧
    (auto_clean_dataset c2Table).rows.length = 3 ∧
    (auto_clean_dataset c2Table).rows.getD 1 [] = [Cell.text "Unknown", Cell.text "Unknown"] := by
  decide

/-- C4 (counterexample).  The claim says the tie among the maximum-frequency
values of a Categorical column is broken by first occurrence in row order,
predicting fill `"B"` for the column `["B","A","B","A", NaN]`.  Pandas'
`mode()` returns the tied values sorted, so `mode()[0]` is `"A"` and the
missing cell is filled with `"A"`. -/
theorem c4_counterexample :
    c4Table.getCol 1 = c4Col ∧
    ((clean_data c4Kinds c4Table).rows.getD 4 []).getD 1 Cell.absent = Cell.text "A" ∧
    (Cell.text "A" == Cell.text "B") = false := by decide

/-- C1 (counterexample).  The claim says the score of a degenerate table is
100 by convention.  `perform_eda` in `src/auto_eda_cleaner.py` applies only
`max(0, score)`, and the degenerate table makes the score NaN, which
Python's `max` resolves to its first argument: the returned score is 0,
not 100 (the `main.py` copy does return 100, via `min(100, nan) = 100`). -/
theorem c1_counterexample :
    quality_score_eda degTable = 0 ∧
    quality_score_main degTable = 100 ∧
    (decide ((0 : ℚ) = 100)) = false := by decide

end DataClean

namespace DataClean

/-! ### Helper lemmas -/

theorem pyMax0_nonneg (x : Option ℚ) : 0 ≤ pyMax0 x := by
  cases x with
  | none => simp [pyMax0]
  | some q =>
    simp only [pyMax0]
    split <;> linarith

theorem pyMin100_le_100 (x : Option ℚ) : pyMin100 x ≤ 100 := by
  cases x with
  | none => simp [pyMin100]
  | some q =>
    simp only [pyMin100]
    split <;> linarith

theorem scoreExpr_none_left (dr : Option ℚ) : scoreExpr none dr = none := by
  cases dr <;> rfl

theorem pdiv_nonneg_of (a b : ℚ) (ha : 0 ≤ a) (hb : 0 ≤ b) (q : ℚ)
    (h : pdiv a b = some q) : 0 ≤ q := by
  unfold pdiv at h
  split at h
  · exact absurd h (by simp)
  · cases h
    exact div_nonneg ha hb

theorem scoreExpr_le_100 (mr dr : Option ℚ)
    (hm : ∀ m, mr = some m → 0 ≤ m) (hd : ∀ d, dr = some d → 0 ≤ d) :
    ∀ q, scoreExpr mr dr = some q → q ≤ 100 := by
  intro q hq
  cases mr with
  | none => rw [scoreExpr_none_left] at hq; cases hq
  | some m =>
    cases dr with
    | none => cases hq
    | some d =>
      have h1 := hm m rfl
      have h2 := hd d rfl
      simp only [scoreExpr] at hq
      cases hq
      nlinarith

theorem pyMax0_le_100 (x : Option ℚ) (h : ∀ q, x = some q → q ≤ 100) : pyMax0 x ≤ 100 := by
  cases x with
  | none => norm_num [pyMax0]
  | some q =>
    have := h q rfl
    simp only [pyMax0]
    split <;> linarith

theorem pyMax0_some_eq_max (q : ℚ) : pyMax0 (some q) = max 0 q := by
  simp only [pyMax0]
  split
  · exact (max_eq_right (le_of_lt (by assumption))).symm
  · exact (max_eq_left (le_of_not_lt (by assumption))).symm

theorem pyMin100_some_eq_min (q : ℚ) : pyMin100 (some q) = min 100 q := by
  simp only [pyMin100]
  split
  · exact (min_eq_right (le_of_lt (by assumption))).symm
  · exact (min_eq_left (le_of_not_lt (by assumption))).symm

theorem setCol_names (t : Table) (j : ℕ) (vs : List Cell) : (t.setCol j vs).names = t.names :=
  rfl

theorem applyKind_names (kinds : List ColKind) (k : ColKind) (f : List Cell → List Cell)
    (t : Table) : (applyKind kinds k f t).names = t.names := by
  unfold applyKind
  generalize List.range t.ncols = l
  induction l generalizing t with
  | nil => rfl
  | cons j l ih =>
    simp only [List.foldl_cons]
    rw [ih]
    split <;> rfl

theorem stages_to_text_names (kinds : List ColKind) (dt : List Cell → List Cell) (t : Table) :
    (stages_to_text kinds dt t).names = t.names := by
  unfold stages_to_text
  rw [applyKind_names, applyKind_names, applyKind_names, applyKind_names]
  rfl

theorem heapWrite_getD_ne (f : Table → Table) (h : List Table) (j i : ℕ) (hji : j ≠ i) :
    (heapWrite f h j).getD i emptyTable = h.getD i emptyTable := by
  unfold heapWrite
  rw [List.getD_eq_getElem?_getD, List.getElem?_set_ne hji, ← List.getD_eq_getElem?_getD]

theorem heapWrite_getD_self (f : Table → Table) (h : List Table) (j : ℕ) (hj : j < h.length) :
    (heapWrite f h j).getD j emptyTable = f (h.getD j emptyTable) := by
  unfold heapWrite
  rw [List.getD_eq_getElem?_getD, List.getElem?_set_self hj]
  rfl

theorem heapWrite_length (f : Table → Table) (h : List Table) (j : ℕ) :
    (heapWrite f h j).length = h.length := List.length_set _ _ _

theorem strLeList_refl (l : List Char) : strLeList l l = true := by
  induction l with
  | nil => rfl
  | cons a as ih => simp [strLeList, ih]

theorem strLeList_total : ∀ (a b : List Char), strLeList a b = true ∨ strLeList b a = true
  | [], _ => Or.inl rfl
  | _ :: _, [] => Or.inr rfl
  | a :: as, b :: bs => by
    rcases Nat.lt_trichotomy a.toNat b.toNat with h | h | h
    · left; simp [strLeList, h]
    · rcases strLeList_total as bs with ih | ih
      · left; simp [strLeList, h, ih]
      · right; simp [strLeList, h.symm, ih]
    · right; simp [strLeList, h]

theorem strLeList_trans : ∀ (a b c : List Char),
    strLeList a b = true → strLeList b c = true → strLeList a c = true
  | [], _, _, _, _ => rfl
  | _ :: _, [], _, h, _ => by simp [strLeList] at h
  | _ :: _, _ :: _, [], _, h => by simp [strLeList] at h
  | a :: as, b :: bs, c :: cs, h1, h2 => by
    simp only [strLeList] at h1 h2 ⊢
    rcases Nat.lt_trichotomy a.toNat b.toNat with hab | hab | hab
    · rcases Nat.lt_trichotomy b.toNat c.toNat with hbc | hbc | hbc
      · rw [if_pos (by omega)]
      · rw [if_pos (by omega)]
      · rw [if_neg (by omega), if_pos hbc] at h2; cases h2
    · rw [if_neg (by omega), if_neg (by omega)] at h1
      rcases Nat.lt_trichotomy b.toNat c.toNat with hbc | hbc | hbc
      · rw [if_pos (by omega)]
      · rw [if_neg (by omega), if_neg (by omega)] at h2
        rw [if_neg (by omega), if_neg (by omega)]
        exact strLeList_trans as bs cs h1 h2
      · rw [if_neg (by omega), if_pos hbc] at h2; cases h2
    · rw [if_neg (by omega), if_pos hab] at h1; cases h1

theorem cellLe_refl (c : Cell) : cellLe c c = true := by
  cases c <;> simp [cellLe, strLe, strLeList_refl]

theorem cellLe_total (a b : Cell) : cellLe a b = true ∨ cellLe b a = true := by
  cases a <;> cases b <;> simp [cellLe, strLe]
  · exact le_total _ _
  · exact strLeList_total _ _
  · exact le_total _ _

theorem cellLe_trans (a b c : Cell) (h1 : cellLe a b = true) (h2 : cellLe b c = true) :
    cellLe a c = true := by
  cases a <;> cases b <;> cases c <;> simp_all [cellLe, strLe]
  · exact le_trans h1 h2
  · exact strLeList_trans _ _ _ h1 h2
  · exact le_trans h1 h2

theorem betterMode_eq_or (vals : List Cell) (b c : Cell) :
    betterMode vals b c = b ∨ betterMode vals b c = c := by
  unfold betterMode
  split
  · right; rfl
  · split
    · right; rfl
    · left; rfl

theorem count_le_betterMode_left (vals : List Cell) (b c : Cell) :
    vals.count b ≤ vals.count (betterMode vals b c) := by
  unfold betterMode
  split
  · omega
  · split
    · rename_i h1 h2
      rw [Bool.and_eq_true, decide_eq_true_eq] at h2
      omega
    · exact le_refl _

theorem count_le_betterMode_right (vals : List Cell) (b c : Cell) :
    vals.count c ≤ vals.count (betterMode vals b c) := by
  unfold betterMode
  split
  · exact le_refl _
  · split
    · exact le_refl _
    · omega

theorem betterMode_tie_left (vals : List Cell) (b c : Cell)
    (h : vals.count b = vals.count (betterMode vals b c)) :
    cellLe (betterMode vals b c) b = true := by
  unfold betterMode at h ⊢
  split
  · rename_i h1
    rw [if_pos h1] at h
    exact absurd h1 (by omega)
  · rename_i h1
    split
    · rename_i h2
      rw [Bool.and_eq_true] at h2
      exact h2.2
    · exact cellLe_refl b

theorem betterMode_tie_right (vals : List Cell) (b c : Cell)
    (h : vals.count c = vals.count (betterMode vals b c)) :
    cellLe (betterMode vals b c) c = true := by
  unfold betterMode at h ⊢
  split
  · exact cellLe_refl c
  · rename_i h1
    split
    · exact cellLe_refl c
    · rename_i h2
      rw [if_neg h1, if_neg h2] at h
      rcases cellLe_total b c with ht | ht
      · exact ht
      · exfalso
        apply h2
        rw [Bool.and_eq_true, decide_eq_true_eq]
        exact ⟨h, ht⟩

theorem foldl_betterMode_mem (vals : List Cell) :
    ∀ (cs : List Cell) (c : Cell), cs.foldl (betterMode vals) c ∈ c :: cs
  | [], c => List.mem_singleton.mpr rfl
  | d :: cs, c => by
    simp only [List.foldl_cons]
    have h := foldl_betterMode_mem vals cs (betterMode vals c d)
    rcases List.mem_cons.mp h with heq | hmem
    · rcases betterMode_eq_or vals c d with h2 | h2
      · rw [heq, h2]; exact List.mem_cons_self _ _
      · rw [heq, h2]; exact List.mem_cons_of_mem _ (List.mem_cons_self _ _)
    · exact List.mem_cons_of_mem _ (List.mem_cons_of_mem _ hmem)

theorem foldl_betterMode_count (vals : List Cell) :
    ∀ (cs : List Cell) (c x : Cell), x ∈ c :: cs →
      vals.count x ≤ vals.count (cs.foldl (betterMode vals) c)
  | [], c, x, hx => by
    rcases List.mem_singleton.mp hx with rfl
    exact le_refl _
  | d :: cs, c, x, hx => by
    simp only [List.foldl_cons]
    rcases List.mem_cons.mp hx with rfl | hx2
    · exact le_trans (count_le_betterMode_left vals x d)
        (foldl_betterMode_count vals cs _ _ (List.mem_cons_self _ _))
    · rcases List.mem_cons.mp hx2 with rfl | hx3
      · exact le_trans (count_le_betterMode_right vals c x)
          (foldl_betterMode_count vals cs _ _ (List.mem_cons_self _ _))
      · exact foldl_betterMode_count vals cs _ _ (List.mem_cons_of_mem _ hx3)

theorem foldl_betterMode_min (vals : List Cell) :
    ∀ (cs : List Cell) (c x : Cell), x ∈ c :: cs →
      vals.count x = vals.count (cs.foldl (betterMode vals) c) →
      cellLe (cs.foldl (betterMode vals) c) x = true
  | [], c, x, hx, _ => by
    rcases List.mem_singleton.mp hx with rfl
    exact cellLe_refl x
  | d :: cs, c, x, hx, htie => by
    simp only [List.foldl_cons] at htie ⊢
    rcases List.mem_cons.mp hx with rfl | hx2
    · have h1 : vals.count x ≤ vals.count (betterMode vals x d) :=
        count_le_betterMode_left vals x d
      have h2 : vals.count (betterMode vals x d) ≤
          vals.count (cs.foldl (betterMode vals) (betterMode vals x d)) :=
        foldl_betterMode_count vals cs _ _ (List.mem_cons_self _ _)
      have hcb : vals.count x = vals.count (betterMode vals x d) := by omega
      have hfb : vals.count (betterMode vals x d) =
          vals.count (cs.foldl (betterMode vals) (betterMode vals x d)) := by omega
      exact cellLe_trans _ _ _
        (foldl_betterMode_min vals cs _ _ (List.mem_cons_self _ _) hfb)
        (betterMode_tie_left vals x d hcb)
    · rcases List.mem_cons.mp hx2 with rfl | hx3
      · have h1 : vals.count x ≤ vals.count (betterMode vals c x) :=
          count_le_betterMode_right vals c x
        have h2 : vals.count (betterMode vals c x) ≤
            vals.count (cs.foldl (betterMode vals) (betterMode vals c x)) :=
          foldl_betterMode_count vals cs _ _ (List.mem_cons_self _ _)
        have hcb : vals.count x = vals.count (betterMode vals c x) := by omega
        have hfb : vals.count (betterMode vals c x) =
            vals.count (cs.foldl (betterMode vals) (betterMode vals c x)) := by omega
        exact cellLe_trans _ _ _
          (foldl_betterMode_min vals cs _ _ (List.mem_cons_self _ _) hfb)
          (betterMode_tie_right vals c x hcb)
      · exact foldl_betterMode_min vals cs _ _ (List.mem_cons_of_mem _ hx3) htie

theorem pandasModeFirst_spec (col : List Cell) (m : Cell) (h : pandasModeFirst col = some m) :
    m ∈ nonAbsentCells col ∧
    (∀ c ∈ nonAbsentCells col,
      (nonAbsentCells col).count c ≤ (nonAbsentCells col).count m) ∧
    (∀ c ∈ nonAbsentCells col,
      (nonAbsentCells col).count c = (nonAbsentCells col).count m → cellLe m c = true) := by
  simp only [pandasModeFirst] at h
  cases hd : (nonAbsentCells col).dedup with
  | nil => rw [hd] at h; exact Option.noConfusion h
  | cons c cs =>
    rw [hd] at h
    cases h
    refine ⟨?_, ?_, ?_⟩
    · have hmem := foldl_betterMode_mem (nonAbsentCells col) cs c
      rw [← hd] at hmem
      exact (nonAbsentCells col).dedup_subset hmem
    · intro x hx
      have hxm : x ∈ (nonAbsentCells col).dedup := List.mem_dedup.mpr hx
      rw [hd] at hxm
      exact foldl_betterMode_count _ cs c x hxm
    · intro x hx htie
      have hxm : x ∈ (nonAbsentCells col).dedup := List.mem_dedup.mpr hx
      rw [hd] at hxm
      exact foldl_betterMode_min _ cs c x hxm htie

theorem centralPair_le (l : List ℤ) (a b : ℤ) (h : centralPair l = some (a, b)) : a ≤ b := by
  unfold centralPair at h
  by_cases h0 : (List.insertionSort (· ≤ ·) l).length = 0
  · rw [if_pos h0] at h
    exact Option.noConfusion h
  · rw [if_neg h0] at h
    rw [Option.some.injEq, Prod.mk.injEq] at h
    obtain ⟨ha, hb⟩ := h
    subst ha
    subst hb
    set s := List.insertionSort (· ≤ ·) l with hs
    have hlen : 0 < s.length := Nat.pos_of_ne_zero h0
    have hi : (s.length - 1) / 2 < s.length := by omega
    have hj : s.length / 2 < s.length := by omega
    have hsorted : List.Sorted (· ≤ ·) s := List.sorted_insertionSort _ _
    rw [List.getD_eq_getElem?_getD, List.getD_eq_getElem?_getD,
        List.getElem?_eq_getElem hi, List.getElem?_eq_getElem hj]
    simp only [Option.getD_some]
    by_cases hij : (s.length - 1) / 2 = s.length / 2
    · simp only [hij]
      exact le_refl _
    · have hlt : (s.length - 1) / 2 < s.length / 2 := by omega
      have := hsorted.rel_get_of_lt (a := ⟨(s.length - 1) / 2, hi⟩) (b := ⟨s.length / 2, hj⟩)
        (by exact hlt)
      simpa [List.get_eq_getElem] using this

end DataClean

namespace DataClean

/-- C1 (amended).  Both quality scores always lie in `[0, 100]`; on a
degenerate table (zero rows or zero columns) the `main.py` scorer returns
100 — `min(100, NaN)` keeps 100 — while the `auto_eda_cleaner.py` scorer,
which applies only the lower clamp, returns 0 because `max(0, NaN)` keeps
0. -/
theorem c1_score_bounds_and_degenerate (t : Table) :
    (0 ≤ quality_score_eda t ∧ quality_score_eda t ≤ 100 ∧
     0 ≤ quality_score_main t ∧ quality_score_main t ≤ 100) ∧
    (t.nrows = 0 ∨ t.ncols = 0 → quality_score_main t = 100 ∧ quality_score_eda t = 0) := by
  have hm : ∀ q, pdiv (total_missing t) ((t.nrows * t.ncols : ℕ)) = some q → 0 ≤ q :=
    fun q h => pdiv_nonneg_of _ _ (Nat.cast_nonneg _) (Nat.cast_nonneg _) q h
  have hd : ∀ q, pdiv (duplicate_count t) (t.nrows) = some q → 0 ≤ q :=
    fun q h => pdiv_nonneg_of _ _ (Nat.cast_nonneg _) (Nat.cast_nonneg _) q h
  constructor
  · refine ⟨pyMax0_nonneg _, ?_, pyMax0_nonneg _, ?_⟩
    · exact pyMax0_le_100 _ (scoreExpr_le_100 _ _ hm hd)
    · apply pyMax0_le_100
      intro q hq
      unfold quality_score_main at hq
      cases hq
      exact pyMin100_le_100 _
  · intro hdeg
    have hz : (t.nrows * t.ncols : ℕ) = 0 := by
      rcases hdeg with h | h <;> simp [h]
    have hz2 : pdiv (total_missing t) ((t.nrows * t.ncols : ℕ)) = none := by
      simp [pdiv, hz]
    constructor
    · unfold quality_score_main
      rw [hz2, scoreExpr_none_left]
      norm_num [pyMin100, pyMax0]
    · unfold quality_score_eda
      rw [hz2, scoreExpr_none_left]
      rfl

/-- C1 (witness).  The amended statement instantiated at the header-only
table `degTable1`. -/
theorem c1_witness :
    (degTable1.nrows = 0 ∨ degTable1.ncols = 0) ∧
    quality_score_main degTable1 = 100 ∧ quality_score_eda degTable1 = 0 :=
  ⟨Or.inl rfl, (c1_score_bounds_and_degenerate degTable1).2 (Or.inl rfl)⟩

/-- C2 (amended).  Row-sparsity pruning filters the rows of the table
produced by stages 1-5 by their **post-fill** absent fraction: a surviving
row is dropped exactly when more than half of its cells are still absent
after the fills, every output row has at most half its cells absent, and a
row whose cells were all filled is always kept — so pruning acts only on
absences the fills could not repair, never on the pre-fill snapshot. -/
theorem c2_pruning_uses_postfill_missingness (t : Table) :
    ((auto_clean_dataset t).rows =
      (stages_to_text (detect_column_types t) clean_datetime_col_auto t).rows.filter
        (fun r => decide (2 * r.count Cell.absent ≤ t.ncols))) ∧
    (∀ r ∈ (auto_clean_dataset t).rows, 2 * r.count Cell.absent ≤ t.ncols) ∧
    (∀ r ∈ (stages_to_text (detect_column_types t) clean_datetime_col_auto t).rows,
      r.count Cell.absent = 0 → r ∈ (auto_clean_dataset t).rows) := by
  have hn : (stages_to_text (detect_column_types t) clean_datetime_col_auto t).names.length
      = t.ncols := by
    rw [stages_to_text_names]
    rfl
  have h1 : (auto_clean_dataset t).rows =
      (stages_to_text (detect_column_types t) clean_datetime_col_auto t).rows.filter
        (fun r => decide (2 * r.count Cell.absent ≤ t.ncols)) := by
    show (prune_sparse_rows _).rows = _
    unfold prune_sparse_rows
    rw [hn]
  refine ⟨h1, ?_, ?_⟩
  · intro r hr
    rw [h1] at hr
    have := (List.mem_filter.mp hr).2
    simpa using this
  · intro r hr h0
    rw [h1]
    refine List.mem_filter.mpr ⟨hr, ?_⟩
    simp [h0]

/-- C2 (witness).  The amended statement applied to `c2Table`: the fully
filled row `["Unknown", "Unknown"]` is in the output and satisfies the
post-fill bound. -/
theorem c2_witness :
    [Cell.text "Unknown", Cell.text "Unknown"] ∈ (auto_clean_dataset c2Table).rows ∧
    2 * ([Cell.text "Unknown", Cell.text "Unknown"].count Cell.absent) ≤ c2Table.ncols :=
  ⟨by decide, (c2_pruning_uses_postfill_missingness c2Table).2.1 _ (by decide)⟩

/-- C4 (amended).  For a column classified Categorical that has at least one
non-absent value and an absent cell at position `i`, the pipeline fills
position `i` with the normalized `mode()[0]`, and that value is a
maximum-frequency non-absent value that is `cellLe`-least among all tied
candidates — pandas sorts the tied modes, so the fill is the smallest tied
value, not the first-occurring one. -/
theorem c4_mode_fill_is_least_tied (col : List Cell) (i : ℕ) (m : Cell)
    (hm : pandasModeFirst col = some m)
    (hi : col[i]? = some Cell.absent)
    (hobj : is_object_dtype (cat_filled col) = true) :
    (clean_categorical_col col)[i]? = some (normalize_cat_cell m) ∧
    m ∈ nonAbsentCells col ∧
    (∀ c ∈ nonAbsentCells col,
      (nonAbsentCells col).count c ≤ (nonAbsentCells col).count m) ∧
    (∀ c ∈ nonAbsentCells col,
      (nonAbsentCells col).count c = (nonAbsentCells col).count m → cellLe m c = true) := by
  have hmem : Cell.absent ∈ col := by
    obtain ⟨hlt, he⟩ := List.getElem?_eq_some.mp hi
    exact he ▸ List.getElem_mem hlt
  have hcount : 0 < col.count Cell.absent := List.count_pos_iff.mpr hmem
  have hfill : cat_filled col = fillWith m col := by
    unfold cat_filled
    rw [if_pos hcount, hm]
    rfl
  have hspec := pandasModeFirst_spec col m hm
  refine ⟨?_, hspec.1, hspec.2.1, hspec.2.2⟩
  unfold clean_categorical_col
  rw [hfill] at hobj ⊢
  rw [if_pos hobj]
  unfold fillWith
  rw [List.getElem?_map, List.getElem?_map, hi]
  rfl

/-- C4 (witness).  The amended statement applied to the tie-break column
`["B","A","B","A", NaN]` at position 4 with mode value `"A"`. -/
theorem c4_witness :
    pandasModeFirst c4Col = some (Cell.text "A") ∧
    c4Col[4]? = some Cell.absent ∧
    is_object_dtype (cat_filled c4Col) = true ∧
    (clean_categorical_col c4Col)[4]? = some (normalize_cat_cell (Cell.text "A")) :=
  ⟨by decide, by decide, by decide,
    (c4_mode_fill_is_least_tied c4Col 4 (Cell.text "A") (by decide) (by decide) (by decide)).1⟩

/-- C5 (amended).  A column that is not numeric-dtyped is classified
DateTime exactly when it is already datetime-dtyped or every cell —
including absent markers, which fail the test — is a string of length
below 50; whether any value parses as a calendar date is never consulted,
because the detection code discards the result of its
`pd.to_datetime(..., errors='coerce')` probe. -/
theorem c5_datetime_classification_ignores_parsing (col : List Cell)
    (h : is_numeric_dtype col = false) :
    classify col = ColKind.datetime ↔
      (is_datetime_dtype col = true ∨ col.all isShortStr = true) := by
  by_cases h2 : is_datetime_dtype col <;> by_cases h3 : col.all isShortStr <;>
    simp [classify, h, h2, h3]

/-- C5 (witness).  The amended statement instantiated at a mixed column,
whose dtype is not numeric. -/
theorem c5_witness :
    is_numeric_dtype [Cell.text "x", Cell.num 1] = false ∧
    (classify [Cell.text "x", Cell.num 1] = ColKind.datetime ↔
      (is_datetime_dtype [Cell.text "x", Cell.num 1] = true ∨
       [Cell.text "x", Cell.num 1].all isShortStr = true)) :=
  ⟨by decide, c5_datetime_classification_ignores_parsing _ (by decide)⟩

/-- C6 (amended).  No column is ever classified Categorical — the
cardinality rule sits in an `except:` branch that `errors='coerce'` makes
unreachable — and an all-absent column, having float dtype, is classified
Numeric. -/
theorem c6_categorical_unreachable (col : List Cell) (n : ℕ) :
    classify col ≠ ColKind.categorical ∧
    classify (List.replicate n Cell.absent) = ColKind.numeric := by
  constructor
  · unfold classify
    split
    · simp
    · split
      · simp
      · split <;> simp
  · have h : is_numeric_dtype (List.replicate n Cell.absent) = true := by
      simp [is_numeric_dtype, List.all_eq_true, List.mem_replicate]
    simp [classify, h]

/-- C6 (witness).  The amended statement instantiated at the
low-cardinality long-string column and the two-row all-absent column. -/
theorem c6_witness :
    classify (List.replicate 4 longText) ≠ ColKind.categorical ∧
    classify (List.replicate 2 Cell.absent) = ColKind.numeric :=
  c6_categorical_unreachable (List.replicate 4 longText) 2

/-- C7 (amended).  For a DateTime-classified column with at least one
pre-coercion absent cell and at least one parseable value, an unparseable
or absent position is filled with the day-floored chronological midpoint
of the two central parsed dates `(a + b) / 2` (for an odd count `a = b`
and this is the middle date); the filled day lies between the central
dates but — for an even count — need not equal either of them, and in
particular is not always the earlier central date. -/
theorem c7_datetime_fill_is_floor_midpoint (col : List Cell) (i : ℕ) (a b : ℤ)
    (hmiss : 0 < col.count Cell.absent)
    (hi : (col.map to_datetime_cell)[i]? = some none)
    (hc : centralPair ((col.map to_datetime_cell).filterMap id) = some (a, b)) :
    (clean_datetime_col_auto col)[i]? = some (Cell.text (fmtDays ((a + b) / 2))) ∧
    a ≤ (a + b) / 2 ∧ (a + b) / 2 ≤ b := by
  have hab := centralPair_le _ _ _ hc
  refine ⟨?_, by omega, by omega⟩
  simp only [clean_datetime_col_auto, median2_days]
  rw [if_pos hmiss, hc]
  simp only [Option.map_some']
  rw [List.getElem?_map, hi]
  rfl

/-- C7 (witness).  The amended statement applied to the column of
`c7Table` at its absent position, with central dates 2020-01-01 and
2020-01-03. -/
theorem c7_witness :
    0 < c7Col.count Cell.absent ∧
    ((clean_datetime_col_auto c7Col)[2]? =
        some (Cell.text (fmtDays ((18262 + 18264) / 2))) ∧
      (18262 : ℤ) ≤ (18262 + 18264) / 2 ∧ ((18262 : ℤ) + 18264) / 2 ≤ 18264) :=
  ⟨by decide, c7_datetime_fill_is_floor_midpoint c7Col 2 18262 18264
    (by decide) (by decide) (by decide)⟩

/-- C8.  For a non-empty table both scorers compute exactly
`clamp(0, 100, (1 - missing_ratio) * 100 - duplicate_ratio * 10)`, and
since both ratios are non-negative the raw score never exceeds 100, so the
lower clamp alone gives the same value. -/
theorem c8_score_equals_clamp (t : Table) (hr : 0 < t.nrows) (hc : 0 < t.ncols) :
    quality_score_eda t = clamp_spec t ∧ quality_score_main t = clamp_spec t ∧
    clamp_spec t = max 0 (raw_score t) := by
  have hR : ((t.nrows : ℕ) : ℚ) ≠ 0 := Nat.cast_ne_zero.mpr hr.ne'
  have hRC : ((t.nrows * t.ncols : ℕ) : ℚ) ≠ 0 :=
    Nat.cast_ne_zero.mpr (Nat.mul_ne_zero hr.ne' hc.ne')
  have hmax : max t.nrows 1 = t.nrows := max_eq_left hr
  have e1 : pdiv (total_missing t) ((t.nrows * t.ncols : ℕ)) = some (missing_ratio t) := by
    unfold pdiv
    rw [if_neg hRC]
    rfl
  have e2 : pdiv (duplicate_count t) (t.nrows) = some (duplicate_ratio t) := by
    unfold pdiv
    rw [if_neg hR]
    rfl
  have hmr : 0 ≤ missing_ratio t := div_nonneg (Nat.cast_nonneg _) (Nat.cast_nonneg _)
  have hdr : 0 ≤ duplicate_ratio t := div_nonneg (Nat.cast_nonneg _) (Nat.cast_nonneg _)
  have hraw : raw_score t ≤ 100 := by unfold raw_score; nlinarith
  have hmin : min 100 (raw_score t) = raw_score t := min_eq_right hraw
  refine ⟨?_, ?_, ?_⟩
  · unfold quality_score_eda
    rw [e1, e2]
    simp only [scoreExpr]
    rw [pyMax0_some_eq_max]
    unfold clamp_spec
    rw [hmin]
    rfl
  · unfold quality_score_main
    rw [hmax, e1, e2]
    simp only [scoreExpr]
    rw [pyMax0_some_eq_max, pyMin100_some_eq_min]
    unfold clamp_spec
    rfl
  · unfold clamp_spec
    rw [hmin]

/-- C8 (witness).  The clamp identity at the concrete two-row table with
one duplicate row (score 95). -/
theorem c8_witness :
    0 < dupTable.nrows ∧ 0 < dupTable.ncols ∧
    (quality_score_eda dupTable = clamp_spec dupTable ∧
     quality_score_main dupTable = clamp_spec dupTable ∧
     clamp_spec dupTable = max 0 (raw_score dupTable)) :=
  ⟨by decide, by decide, c8_score_equals_clamp dupTable (by decide) (by decide)⟩

/-- C9.  The cleaning pipeline never mutates the caller's table: running
`clean_data` on the addressed store leaves the table at the caller's
address untouched, returns a different address, and the table at the
returned address is exactly `auto_clean_dataset` of the input — the
`df = df.copy()` at the top of the function confines every in-place column
assignment to the fresh copy. -/
theorem c9_clean_does_not_mutate_input (heap : List Table) (i : ℕ) (hi : i < heap.length) :
    (clean_data_heap heap i).1.getD i emptyTable = heap.getD i emptyTable ∧
    (clean_data_heap heap i).2 ≠ i ∧
    (clean_data_heap heap i).1.getD (clean_data_heap heap i).2 emptyTable =
      auto_clean_dataset (heap.getD i emptyTable) := by
  have hne : heap.length ≠ i := fun h => absurd hi (by rw [← h]; exact lt_irrefl _)
  refine ⟨?_, ?_, ?_⟩
  · show (heapWrite _ _ _).getD i emptyTable = _
    rw [heapWrite_getD_ne _ _ _ _ hne, heapWrite_getD_ne _ _ _ _ hne,
        heapWrite_getD_ne _ _ _ _ hne, heapWrite_getD_ne _ _ _ _ hne,
        heapWrite_getD_ne _ _ _ _ hne, heapWrite_getD_ne _ _ _ _ hne]
    rw [List.getD_eq_getElem?_getD, List.getElem?_append_left hi, ← List.getD_eq_getElem?_getD]
  · exact fun h => hne h
  · have hj : heap.length < (heap ++ [heap.getD i emptyTable]).length := by
      simp
    show (heapWrite _ _ _).getD heap.length emptyTable = _
    rw [heapWrite_getD_self _ _ _ (by
          rw [heapWrite_length, heapWrite_length, heapWrite_length, heapWrite_length,
              heapWrite_length]; exact hj),
        heapWrite_getD_self _ _ _ (by
          rw [heapWrite_length, heapWrite_length, heapWrite_length, heapWrite_length]; exact hj),
        heapWrite_getD_self _ _ _ (by
          rw [heapWrite_length, heapWrite_length, heapWrite_length]; exact hj),
        heapWrite_getD_self _ _ _ (by rw [heapWrite_length, heapWrite_length]; exact hj),
        heapWrite_getD_self _ _ _ (by rw [heapWrite_length]; exact hj),
        heapWrite_getD_self _ _ _ hj]
    have hbase : (heap ++ [heap.getD i emptyTable]).getD heap.length emptyTable
        = heap.getD i emptyTable := by
      rw [List.getD_eq_getElem?_getD, List.getElem?_concat_length]
      rfl
    rw [hbase]
    rfl

/-- C9 (witness).  The no-mutation statement at a one-table store. -/
theorem c9_witness :
    0 < [c9Table].length ∧
    ((clean_data_heap [c9Table] 0).1.getD 0 emptyTable = [c9Table].getD 0 emptyTable ∧
     (clean_data_heap [c9Table] 0).2 ≠ 0 ∧
     (clean_data_heap [c9Table] 0).1.getD (clean_data_heap [c9Table] 0).2 emptyTable =
       auto_clean_dataset ([c9Table].getD 0 emptyTable)) :=
  ⟨by decide, c9_clean_does_not_mutate_input [c9Table] 0 (by decide)⟩

end DataClean
